import Mathlib

/-!
Shallow embedding of the imgproxy URL builder (TypeScript sources under
src/src/): the modifier-chain builder (param-builder.ts) and the two
transformer files present in the repository (enlarge.ts, rotate.ts).

Modelling conventions:
- JavaScript strings are Lean String values; the ordered modifier array
  of a ParamBuilder instance is a List String.
- The external collaborators encodeFilePath and generateSignature are
  imported by param-builder.ts from a utils module that is not part of
  the sources; build is therefore parameterized over them (enc, sg) and
  every theorem quantifies over the two functions.
- Mutation of the modifiers array through object references is modelled
  by a small store of arrays (Store); a ParamBuilder handle is an index
  into the store, push mutates the addressed array in place, and clone
  allocates a fresh array holding a copy, exactly as
  new ParamBuilder([...this.modifiers]) does.
- Optional / possibly-undefined TypeScript values become Option; the
  truthiness tests of the source (!path, plain, baseUrl ? _ : _) become
  explicit emptiness / getD tests on those options.
-/

namespace ImgproxyUrlBuilder

/-- The signature option pair of ParamBuilder.build
(param-builder.ts line 56). -/
structure SignatureOptions where
  key : String
  salt : String
  deriving Repr, DecidableEq

/-- The options record of ParamBuilder.build (param-builder.ts lines
52-57). path is a required string there; an absent options argument is
modelled as Option.none at the call site. -/
structure BuildOptions where
  path : String
  baseUrl : Option String
  plain : Option Bool
  signature : Option SignatureOptions
  deriving Repr, DecidableEq

/-- The file segment pushed in param-builder.ts lines 62-63: the two
literal components plain / path in plain mode, otherwise the single
component enc path. -/
def fileSegment (enc : String → String) (plain : Bool) (path : String) :
    List String :=
  if plain then ["plain", path] else [enc path]

/-- param-builder.ts lines 66-68: prepend the generated signature when
one is requested. -/
def finalizePath (sg : String → String → String → String)
    (sigOpt : Option SignatureOptions) (res : String) : String :=
  match sigOpt with
  | some s => sg res s.key s.salt ++ "/" ++ res
  | none => res

/-- param-builder.ts lines 65-70: join the parts, prepend the signature
when requested, then prefix the base URL when it is truthy and a single
slash otherwise. -/
def assemble (sg : String → String → String → String)
    (baseUrl : Option String) (sigOpt : Option SignatureOptions)
    (parts : List String) : String :=
  let finalPath := finalizePath sg sigOpt (String.intercalate "/" parts)
  match baseUrl with
  | some b => if b ≠ "" then b ++ "/" ++ finalPath else "/" ++ finalPath
  | none => "/" ++ finalPath

/-- ParamBuilder.build (param-builder.ts lines 52-71), parameterized
over the imported collaborators encodeFilePath (enc) and
generateSignature (sg). A falsy path short-circuits to the bare joined
chain (line 59); otherwise the file segment is pushed onto a copy of
the modifiers (lines 60-63) and the result assembled (lines 65-70). -/
def build (modifiers : List String) (enc : String → String)
    (sg : String → String → String → String)
    (options : Option BuildOptions) : String :=
  match options with
  | none => String.intercalate "/" modifiers
  | some o =>
    if o.path = "" then String.intercalate "/" modifiers
    else
      assemble sg o.baseUrl o.signature
        (modifiers ++ fileSegment enc (o.plain.getD false) o.path)

/-! ### The reference store

ParamBuilder instances share no state, but a single instance's
modifiers array is one mutable JavaScript array reachable from every
handle the chain methods return (they all return this). The store
models that array heap: a handle is an index, push writes through the
handle, clone allocates a fresh copy. -/

/-- The array heap: one entry per live ParamBuilder modifiers array. -/
structure Store where
  chains : List (List String)
  deriving Repr, DecidableEq

/-- Dereference a handle (reading an absent index yields the empty
chain; theorems restrict to live handles). -/
def Store.read (st : Store) (r : Nat) : List String :=
  st.chains.getD r []

/-- Overwrite the array a handle addresses. -/
def Store.write (st : Store) (r : Nat) (v : List String) : Store :=
  ⟨st.chains.set r v⟩

/-- this.modifiers.push(t) through handle r: the in-place append every
chain method performs (for example param-builder.ts line 78). -/
def pushToken (st : Store) (r : Nat) (t : String) : Store :=
  st.write r (st.read r ++ [t])

/-- ParamBuilder.clone (param-builder.ts lines 41-43):
new ParamBuilder([...this.modifiers]) allocates a fresh array holding a
structural copy; the new handle is the fresh index. -/
def clone (st : Store) (r : Nat) : Store × Nat :=
  (⟨st.chains ++ [st.read r]⟩, st.chains.length)

/-- ParamBuilder.build run against the store: it only reads
this.modifiers (the copy [...this.modifiers] receives the file segment,
param-builder.ts line 60), so the store comes back unchanged next to
the produced string. -/
def buildM (st : Store) (r : Nat) (enc : String → String)
    (sg : String → String → String → String)
    (options : Option BuildOptions) : Store × String :=
  (st, build (st.read r) enc sg options)

/-- A whole sequence of chain-method invocations through handle r: each
chain method records exactly one token by pushing it, so a sequence of
invocations is the left fold of pushToken over the produced tokens. -/
def runCalls (st : Store) (r : Nat) (ts : List String) : Store :=
  ts.foldl (fun s t => pushToken s r t) st

/-! ### Chain methods and their declared return types

Each chain method of ParamBuilder is declared as
method(this: T): Omit(T, name) — calling it on a handle of type T
yields a handle whose type lacks the named method. The Method type
lists the twenty chain methods; removedBy gives, for each method, the
name its return type omits, transcribed from the source lines 77-322.
filename (lines 150-156) omits dpr, not filename. -/

/-- The twenty modifier chain methods of ParamBuilder. -/
inductive Method where
  | autoRotate
  | background
  | blur
  | cacheBuster
  | crop
  | dpr
  | filename
  | format
  | gravity
  | maxBytes
  | pad
  | preset
  | quality
  | resize
  | rotate
  | sharpen
  | stripColorProfile
  | stripMetadata
  | trim
  | watermark
  deriving Repr, DecidableEq, BEq

/-- The method name each chain method's return type Omit-removes,
transcribed from the source: every method removes itself except
filename, whose declared return type is Omit(T, dpr)
(param-builder.ts line 153). -/
def removedBy : Method → Method
  | .filename => .dpr
  | m => m

/-- All twenty chain methods: the interface of a fresh ParamBuilder. -/
def allMethods : List Method :=
  [.autoRotate, .background, .blur, .cacheBuster, .crop, .dpr, .filename,
   .format, .gravity, .maxBytes, .pad, .preset, .quality, .resize,
   .rotate, .sharpen, .stripColorProfile, .stripMetadata, .trim,
   .watermark]

/-- Whether a call sequence type-checks starting from a handle exposing
the given capabilities: each call requires its method present, and the
next handle's type drops removedBy of the called method. -/
def wellTypedFrom : List Method → List Method → Bool
  | _, [] => true
  | caps, m :: ms =>
    caps.contains m &&
      wellTypedFrom (caps.filter (fun k => k ≠ removedBy m)) ms

/-- Whether a call sequence type-checks on a fresh ParamBuilder. -/
def wellTyped (calls : List Method) : Bool :=
  wellTypedFrom allMethods calls

/-! ### The generic option stringifier and the two transformers

enlarge.ts calls stringifyOptions, imported from a shared module that
is not among the sources; it is modelled from the spec below. Numbers
are modelled as rationals (every JavaScript number is one) rendered in
decimal. -/

/-- A primitive value passed to the stringifier: boolean, number,
string, or a null / absent placeholder. -/
inductive OptionValue where
  | b (v : Bool)
  | n (v : Rat)
  | s (v : String)
  | null
  deriving Repr

/-- Decimal expansion of a proper fraction r / d, fuel-bounded (any
JavaScript number needs fewer than 1100 fractional digits). -/
def fracDigits : Nat → Nat → Nat → String
  | 0, _, _ => ""
  | _ + 1, 0, _ => ""
  | fuel + 1, r, d =>
    let r10 := r * 10
    (Nat.digitChar (r10 / d)).toString ++ fracDigits fuel (r10 % d) d

/-- Modelled from the spec: numbers render in minimal decimal form, no
trailing .0 for integral values (spec section 4.1; the rendering lives
in the absent utils module). -/
def renderNumber (q : Rat) : String :=
  let sgn := if q < 0 then "-" else ""
  let n := q.num.natAbs
  let d := q.den
  sgn ++ toString (n / d) ++
    (if n % d = 0 then "" else "." ++ fracDigits 1100 (n % d) d)

/-- Canonical textual form of one stringifier argument: booleans as
1 / 0, numbers in decimal, strings verbatim (spec section 4.1). -/
def renderValue : OptionValue → String
  | .b true => "1"
  | .b false => "0"
  | .n q => renderNumber q
  | .s v => v
  | .null => ""

/-- Whether a stringifier argument is the null / absent placeholder. -/
def isNull : OptionValue → Bool
  | .null => true
  | _ => false

/-- Modelled from the spec: a trailing run of null / absent values is
dropped before rendering (spec section 4.1). -/
def dropTrailingNulls (vs : List OptionValue) : List OptionValue :=
  (vs.reverse.dropWhile isNull).reverse

/-- Modelled from the spec: stringifyOptions renders the prefix, then
for each remaining value a colon followed by its canonical textual form
(spec section 4.1; the source of the shared stringifier module is not
among the files). -/
def stringifyOptions (pfx : String) (values : List OptionValue) :
    String :=
  (dropTrailingNulls values).foldl
    (fun acc v => acc ++ ":" ++ renderValue v) pfx

/-- enlarge (transformers/enlarge.ts line 10):
stringifyOptions with prefix el and the single value true. -/
def enlarge : String :=
  stringifyOptions "el" [.b true]

/-- backgroundAlpha (transformers/enlarge.ts lines 27-28):
stringifyOptions with prefix bga and the single numeric value. -/
def backgroundAlpha (percentage : Rat) : String :=
  stringifyOptions "bga" [.n percentage]

/-! ### Helper lemmas on getD over set and append -/

theorem getD_set_self {α : Type} (l : List α) (i : Nat) (v d : α)
    (h : i < l.length) : (l.set i v).getD i d = v := by
  simp [List.getD_eq_getElem?_getD, List.getElem?_set_self', h,
    List.getElem?_eq_getElem]

theorem getD_set_ne {α : Type} (l : List α) (i j : Nat) (v d : α)
    (h : i ≠ j) : (l.set i v).getD j d = l.getD j d := by
  simp [List.getD_eq_getElem?_getD, List.getElem?_set_ne h]

theorem getD_append_lt {α : Type} (l m : List α) (i : Nat) (d : α)
    (h : i < l.length) : (l ++ m).getD i d = l.getD i d := by
  simp [List.getD_eq_getElem?_getD, List.getElem?_append, h]

theorem getD_concat_length {α : Type} (l : List α) (c d : α) :
    (l ++ [c]).getD l.length d = c := by
  simp [List.getD_eq_getElem?_getD, List.getElem?_concat_length]

theorem length_pushToken (st : Store) (r : Nat) (t : String) :
    (pushToken st r t).chains.length = st.chains.length := by
  simp [pushToken, Store.write]

theorem read_pushToken_self (st : Store) (r : Nat) (t : String)
    (h : r < st.chains.length) :
    (pushToken st r t).read r = st.read r ++ [t] :=
  getD_set_self st.chains r (st.read r ++ [t]) [] h

theorem runCalls_read (st : Store) (r : Nat) (ts : List String)
    (h : r < st.chains.length) :
    (runCalls st r ts).read r = st.read r ++ ts := by
  induction ts generalizing st with
  | nil => simp [runCalls]
  | cons t ts ih =>
    have h2 : r < (pushToken st r t).chains.length := by
      rw [length_pushToken]; exact h
    have := ih (pushToken st r t) h2
    simp only [runCalls, List.foldl_cons] at *
    rw [this, read_pushToken_self st r t h]
    simp

theorem clone_read_copy (st : Store) (r : Nat) :
    (clone st r).1.read (clone st r).2 = st.read r := by
  simp only [clone, Store.read]
  exact getD_concat_length st.chains (st.chains.getD r []) []

theorem clone_read_preserved (st : Store) (r : Nat)
    (h : r < st.chains.length) :
    (clone st r).1.read r = st.read r := by
  simp only [clone, Store.read]
  exact getD_append_lt st.chains [st.read r] r [] h

/-! ### The claims -/

/-- Claim C1: for every chain and every build call whose options hold a
non-empty path and a signature pair, the final-path part of the result
is sg(core) followed by a slash and the core, where the core is the
token sequence plus the file segment joined by slashes; the signature
is computed over exactly that core, before the baseUrl or leading-slash
prefix is applied. -/
theorem build_signature_covers_core_path (enc : String → String)
    (sg : String → String → String → String) (modifiers : List String)
    (path key salt : String) (baseUrl : Option String)
    (plain : Option Bool) (h : path ≠ "") :
    build modifiers enc sg (some ⟨path, baseUrl, plain, some ⟨key, salt⟩⟩) =
      (match baseUrl with
       | some b => if b ≠ "" then b ++ "/" else "/"
       | none => "/") ++
      (sg (String.intercalate "/"
            (modifiers ++ fileSegment enc (plain.getD false) path)) key salt
        ++ "/" ++
        String.intercalate "/"
          (modifiers ++ fileSegment enc (plain.getD false) path)) := by
  unfold build assemble finalizePath
  simp only [h, if_neg h]
  cases baseUrl with
  | none => simp [String.append_assoc]
  | some b =>
    by_cases hb : b = "" <;> simp [hb, String.append_assoc]

/-- Witness for claim C1 at a concrete chain, path and key pair. -/
theorem build_signature_covers_core_path_witness :
    ("p" : String) ≠ "" ∧
    build ["a"] (fun s => s) (fun m _ _ => m)
      (some ⟨"p", none, none, some ⟨"k", "t"⟩⟩) = "/a/p/a/p" := by
  refine ⟨by decide, ?_⟩
  rw [build_signature_covers_core_path (fun s => s) (fun m _ _ => m) ["a"]
    "p" "k" "t" none none (by decide)]
  decide

/-- Claim C2: build with no options, or with an empty path, returns
exactly the token sequence joined by slashes (the empty string for an
empty chain), with no file segment, signature or baseUrl prefix; a
supplied signature or baseUrl is silently ignored, never an error. -/
theorem build_falsy_path_bare_chain (enc : String → String)
    (sg : String → String → String → String) (modifiers : List String) :
    build modifiers enc sg none = String.intercalate "/" modifiers ∧
    (∀ (baseUrl : Option String) (plain : Option Bool)
        (sigOpt : Option SignatureOptions),
      build modifiers enc sg (some ⟨"", baseUrl, plain, sigOpt⟩) =
        String.intercalate "/" modifiers) ∧
    build [] enc sg none = "" := by
  refine ⟨rfl, fun _ _ _ => rfl, rfl⟩

/-- Claim C3: for a non-empty path, the file segment appended after the
tokens is the two literal components plain and the raw path when
options.plain is true, otherwise the single component enc path; the
two forms never coincide. -/
theorem build_file_segment_forms (enc : String → String)
    (sg : String → String → String → String) (modifiers : List String)
    (path : String) (baseUrl : Option String)
    (sigOpt : Option SignatureOptions) (h : path ≠ "") :
    build modifiers enc sg (some ⟨path, baseUrl, some true, sigOpt⟩) =
        assemble sg baseUrl sigOpt (modifiers ++ ["plain", path]) ∧
    (∀ plain : Option Bool, plain ≠ some true →
      build modifiers enc sg (some ⟨path, baseUrl, plain, sigOpt⟩) =
        assemble sg baseUrl sigOpt (modifiers ++ [enc path])) ∧
    (["plain", path] : List String) ≠ [enc path] := by
  refine ⟨by simp [build, h, fileSegment], ?_, by simp⟩
  intro plain hp
  cases plain with
  | none => simp [build, h, fileSegment]
  | some b =>
    cases b with
    | false => simp [build, h, fileSegment]
    | true => exact absurd rfl hp

/-- Witness for claim C3 at a concrete chain and path in both modes. -/
theorem build_file_segment_forms_witness :
    ("p" : String) ≠ "" ∧
    build ["m"] (fun _ => "E") (fun m _ _ => m)
      (some ⟨"p", none, some true, none⟩) = "/m/plain/p" ∧
    build ["m"] (fun _ => "E") (fun m _ _ => m)
      (some ⟨"p", none, none, none⟩) = "/m/E" := by
  have h := build_file_segment_forms (fun _ => "E") (fun m _ _ => m) ["m"]
    "p" none none (by decide)
  refine ⟨by decide, ?_, ?_⟩
  · rw [h.1]; decide
  · rw [h.2.1 none (by decide)]; decide

/-- Claim C4: running any sequence of chain-method invocations through
a live handle appends exactly the produced tokens in invocation order,
and the bare build output is those tokens joined in that same order; no
reordering, sorting or de-duplication occurs, for every length and
permutation of the token list. -/
theorem build_order_preserved (st : Store) (r : Nat) (ts : List String)
    (enc : String → String) (sg : String → String → String → String)
    (h : r < st.chains.length) :
    (runCalls st r ts).read r = st.read r ++ ts ∧
    build ((runCalls st r ts).read r) enc sg none =
      String.intercalate "/" (st.read r ++ ts) := by
  refine ⟨runCalls_read st r ts h, ?_⟩
  rw [runCalls_read st r ts h]
  rfl

/-- Witness for claim C4: a fresh chain receiving two tokens in an
order a sorter would swap keeps them in invocation order. -/
theorem build_order_preserved_witness :
    0 < (Store.mk [[]]).chains.length ∧
    ((runCalls (Store.mk [[]]) 0 ["b", "a"]).read 0 = ["b", "a"] ∧
     build ((runCalls (Store.mk [[]]) 0 ["b", "a"]).read 0) (fun s => s)
       (fun m _ _ => m) none = "b/a") := by
  have h := build_order_preserved (Store.mk [[]]) 0 ["b", "a"]
    (fun s => s) (fun m _ _ => m) (by decide)
  refine ⟨by decide, ?_, ?_⟩
  · rw [h.1]; decide
  · rw [h.2]; decide

/-- Claim C5, refuted on the code: the call sequence invoking filename
twice type-checks against the declared return types of the chain
methods, because filename declares the return type Omit of dpr instead
of Omit of filename (param-builder.ts line 153), and it is the only
method whose double invocation type-checks. The token count of that
sequence is two, so filename can contribute two tokens to one chain
through the exposed API. -/
theorem filename_reusable :
    wellTyped [Method.filename, Method.filename] = true ∧
    allMethods.filter (fun m => wellTyped [m, m]) = [Method.filename] := by
  decide

/-- Claim C6: clone returns a handle to a structurally equal but
independent token sequence: pushing through the clone handle leaves the
original handle's build output unchanged, and pushing through the
original handle leaves the clone's build output unchanged. -/
theorem clone_independent (st : Store) (r : Nat) (t u : String)
    (enc : String → String) (sg : String → String → String → String)
    (opts : Option BuildOptions) (h : r < st.chains.length) :
    (clone st r).1.read (clone st r).2 = st.read r ∧
    build ((pushToken (clone st r).1 (clone st r).2 t).read r) enc sg opts =
      build (st.read r) enc sg opts ∧
    build ((pushToken (clone st r).1 r u).read (clone st r).2) enc sg opts =
      build ((clone st r).1.read (clone st r).2) enc sg opts := by
  have hne : r ≠ st.chains.length := Nat.ne_of_lt h
  refine ⟨clone_read_copy st r, ?_, ?_⟩
  · have hread : (pushToken (clone st r).1 (clone st r).2 t).read r =
        (clone st r).1.read r := by
      simp only [pushToken, Store.write, Store.read, clone]
      exact getD_set_ne _ _ _ _ _ (Ne.symm hne)
    rw [hread, clone_read_preserved st r h]
  · have hread : (pushToken (clone st r).1 r u).read (clone st r).2 =
        (clone st r).1.read (clone st r).2 := by
      simp only [pushToken, Store.write, Store.read, clone]
      exact getD_set_ne _ _ _ _ _ hne
    rw [hread]

/-- Witness for claim C6 at a concrete one-chain store. -/
theorem clone_independent_witness :
    0 < (Store.mk [["a"]]).chains.length ∧
    ((clone (Store.mk [["a"]]) 0).1.read (clone (Store.mk [["a"]]) 0).2 =
        (Store.mk [["a"]]).read 0 ∧
     build ((pushToken (clone (Store.mk [["a"]]) 0).1
          (clone (Store.mk [["a"]]) 0).2 "x").read 0)
        (fun s => s) (fun m _ _ => m) none =
      build ((Store.mk [["a"]]).read 0) (fun s => s) (fun m _ _ => m) none ∧
     build ((pushToken (clone (Store.mk [["a"]]) 0).1 0 "y").read
          (clone (Store.mk [["a"]]) 0).2)
        (fun s => s) (fun m _ _ => m) none =
      build ((clone (Store.mk [["a"]]) 0).1.read (clone (Store.mk [["a"]]) 0).2)
        (fun s => s) (fun m _ _ => m) none) :=
  ⟨by decide, clone_independent (Store.mk [["a"]]) 0 "x" "y"
    (fun s => s) (fun m _ _ => m) none (by decide)⟩

/-- Claim C7: build leaves the store untouched for every options value,
repeated builds with the same or different options read the same chain
state, and a build after a further push reads the then-current token
sequence. -/
theorem build_pure_read (st : Store) (r : Nat) (enc : String → String)
    (sg : String → String → String → String)
    (o o2 : Option BuildOptions) (t : String)
    (h : r < st.chains.length) :
    (buildM st r enc sg o).1 = st ∧
    (buildM (buildM st r enc sg o).1 r enc sg o).2 =
      (buildM st r enc sg o).2 ∧
    (buildM (buildM st r enc sg o).1 r enc sg o2).2 =
      build (st.read r) enc sg o2 ∧
    (buildM (pushToken st r t) r enc sg o).2 =
      build (st.read r ++ [t]) enc sg o := by
  refine ⟨rfl, rfl, rfl, ?_⟩
  simp only [buildM]
  rw [read_pushToken_self st r t h]

/-- Witness for claim C7 at a concrete one-chain store. -/
theorem build_pure_read_witness :
    0 < (Store.mk [["a"]]).chains.length ∧
    ((buildM (Store.mk [["a"]]) 0 (fun s => s) (fun m _ _ => m) none).1 =
        Store.mk [["a"]] ∧
     (buildM (buildM (Store.mk [["a"]]) 0 (fun s => s) (fun m _ _ => m) none).1
        0 (fun s => s) (fun m _ _ => m) none).2 =
      (buildM (Store.mk [["a"]]) 0 (fun s => s) (fun m _ _ => m) none).2 ∧
     (buildM (buildM (Store.mk [["a"]]) 0 (fun s => s) (fun m _ _ => m) none).1
        0 (fun s => s) (fun m _ _ => m)
        (some ⟨"p", none, none, none⟩)).2 =
      build ((Store.mk [["a"]]).read 0) (fun s => s) (fun m _ _ => m)
        (some ⟨"p", none, none, none⟩) ∧
     (buildM (pushToken (Store.mk [["a"]]) 0 "x") 0 (fun s => s)
        (fun m _ _ => m) none).2 =
      build ((Store.mk [["a"]]).read 0 ++ ["x"]) (fun s => s)
        (fun m _ _ => m) none) :=
  ⟨by decide, build_pure_read (Store.mk [["a"]]) 0 (fun s => s)
    (fun m _ _ => m) none (some ⟨"p", none, none, none⟩) "x" (by decide)⟩

/-- Claim C8: with a non-empty path, a non-empty baseUrl is joined to
the final path by exactly one slash and without an extra leading slash,
while an absent or empty baseUrl yields a single leading slash before
the final path. -/
theorem build_base_url_prefix (enc : String → String)
    (sg : String → String → String → String) (modifiers : List String)
    (path : String) (plain : Option Bool)
    (sigOpt : Option SignatureOptions) (h : path ≠ "") :
    (∀ b : String, b ≠ "" →
      build modifiers enc sg (some ⟨path, some b, plain, sigOpt⟩) =
        b ++ "/" ++ finalizePath sg sigOpt (String.intercalate "/"
          (modifiers ++ fileSegment enc (plain.getD false) path))) ∧
    build modifiers enc sg (some ⟨path, none, plain, sigOpt⟩) =
      "/" ++ finalizePath sg sigOpt (String.intercalate "/"
        (modifiers ++ fileSegment enc (plain.getD false) path)) ∧
    build modifiers enc sg (some ⟨path, some "", plain, sigOpt⟩) =
      "/" ++ finalizePath sg sigOpt (String.intercalate "/"
        (modifiers ++ fileSegment enc (plain.getD false) path)) := by
  refine ⟨fun b hb => ?_, ?_, ?_⟩
  · simp [build, h, assemble, hb]
  · simp [build, h, assemble]
  · simp [build, h, assemble]

/-- Witness for claim C8 at a concrete chain under the three baseUrl
shapes. -/
theorem build_base_url_prefix_witness :
    ("p" : String) ≠ "" ∧
    build ["a"] (fun s => s) (fun m _ _ => m)
      (some ⟨"p", some "https://x", none, none⟩) = "https://x/a/p" ∧
    build ["a"] (fun s => s) (fun m _ _ => m)
      (some ⟨"p", none, none, none⟩) = "/a/p" ∧
    build ["a"] (fun s => s) (fun m _ _ => m)
      (some ⟨"p", some "", none, none⟩) = "/a/p" := by
  have h := build_base_url_prefix (fun s => s) (fun m _ _ => m) ["a"] "p"
    none none (by decide)
  refine ⟨by decide, ?_, ?_, ?_⟩
  · rw [h.1 "https://x" (by decide)]; decide
  · rw [h.2.1]; decide
  · rw [h.2.2]; decide

/-- Claim C9: enlarge returns the token obtained by stringifying the
prefix el with the single boolean value true, which renders as el
colon one under the boolean-as-one-or-zero convention. -/
theorem enlarge_token :
    enlarge = stringifyOptions "el" [OptionValue.b true] ∧
    enlarge = "el:1" :=
  ⟨rfl, by decide⟩

/-- Claim C10: for every number p, also outside the documented domain
between zero and one, backgroundAlpha p is the token obtained by
stringifying the prefix bga with the single value p, that is bga colon
followed by the decimal rendering of p; the function is total, so no
range validation happens and no error is ever raised. -/
theorem background_alpha_token (p : Rat) :
    backgroundAlpha p = stringifyOptions "bga" [OptionValue.n p] ∧
    backgroundAlpha p = "bga:" ++ renderNumber p := by
  refine ⟨rfl, ?_⟩
  show stringifyOptions "bga" [OptionValue.n p] = "bga:" ++ renderNumber p
  simp [stringifyOptions, dropTrailingNulls, isNull, renderValue]

end ImgproxyUrlBuilder
